import Mathlib

/-!
Verification development for the orchestrator dashboard server
(`src/dashboard/server.py`).  The Python functions relevant to the session
status inference engine, the status reconciler, session-name resolution, the
task lifecycle store (launch / duplicate) and the pending-queue sort are
shallowly embedded as executable Lean definitions, and the specified
properties are proved about them.

String conventions: Python `str` values are embedded as Lean `String`,
operated on through explicit `List Char` helpers that mirror the Python
string methods used by the source (ASCII case folding and ASCII whitespace,
which covers every character the source's patterns and the captured terminal
text rely on).  Wall-clock time (`datetime.now().timestamp()`) is passed as
an explicit `now_ts` parameter.
-/

/-- ASCII whitespace as recognised by Python's `str.strip` / regex `\s`
(space, tab, newline, carriage return, form feed, vertical tab). -/
def isPyWs (c : Char) : Bool :=
  c = ' ' || c = '\t' || c = '\n' || c = '\r' || c = '\x0b' || c = '\x0c'

/-- ASCII lower-casing of one character, as done by `str.lower` on the
ASCII range. -/
def charLower (c : Char) : Char :=
  if 'A' ≤ c && c ≤ 'Z' then Char.ofNat (c.toNat + 32) else c

/-- ASCII upper-casing of one character, as done by `str.upper` on the
ASCII range. -/
def charUpper (c : Char) : Char :=
  if 'a' ≤ c && c ≤ 'z' then Char.ofNat (c.toNat - 32) else c

/-- Python `str.lower` (ASCII fragment). -/
def pyLower (s : String) : String := ⟨s.data.map charLower⟩

/-- Python `str.upper` (ASCII fragment). -/
def pyUpper (s : String) : String := ⟨s.data.map charUpper⟩

/-- Python `str.strip()` on a character list. -/
def listStrip (l : List Char) : List Char :=
  ((l.dropWhile isPyWs).reverse.dropWhile isPyWs).reverse

/-- Python `str.strip()`. -/
def pyStrip (s : String) : String := ⟨listStrip s.data⟩

/-- Python slicing `s[:n]` (by characters). -/
def pyTake (s : String) (n : Nat) : String := ⟨s.data.take n⟩

/-- Python slicing `s[n:]` (by characters). -/
def pyDrop (s : String) (n : Nat) : String := ⟨s.data.drop n⟩

/-- Python `s.startswith(p)`. -/
def pyStartsWith (s p : String) : Bool := p.data.isPrefixOf s.data

/-- Substring test on character lists: `needle` occurs somewhere in the
haystack.  Embeds Python's `needle in hay`. -/
def listHasSub (needle : List Char) : List Char → Bool
  | [] => needle.isEmpty
  | c :: rest => needle.isPrefixOf (c :: rest) || listHasSub needle rest

/-- Python `needle in hay` for strings. -/
def pyIn (needle hay : String) : Bool := listHasSub needle.data hay.data

/-- Python `"\n".join(lines)`. -/
def pyJoinNL (lines : List String) : String :=
  ⟨List.intercalate ['\n'] (lines.map String.data)⟩

/-! ### Pattern constants of `src/dashboard/server.py` -/

/-- `ERROR_PATTERNS` from the source. -/
def ERROR_PATTERNS : List String :=
  ["traceback", "exception", "fatal:", "error:", "failed"]

/-- `DONE_PATTERNS` from the source. -/
def DONE_PATTERNS : List String :=
  ["task complete", "task completed", "completed end-to-end", "done."]

/-- `WORKING_PATTERNS` from the source. -/
def WORKING_PATTERNS : List String :=
  ["esc to interrupt", "working (", "planning ", "running job bot",
   "tracking run progress", "waiting for background terminal"]

/-- `DEMOTABLE_WORKING_PATTERNS` from the source. -/
def DEMOTABLE_WORKING_PATTERNS : List String :=
  ["esc to interrupt", "working (", "planning ", "tracking run progress"]

/-- `BACKGROUND_PROGRESS_PATTERNS` from the source. -/
def BACKGROUND_PROGRESS_PATTERNS : List String :=
  ["waiting for background terminal", "tracking run progress", "running job bot"]

/-- `INFORMATIONAL_PROMPT_PREFIXES` from the source (the single entry
`"use /"`). -/
def INFO_PROMPT_STARTS : List String := ["use /"]

/-- `PROMPT_STALE_SECONDS` from the source. -/
def PROMPT_STALE_SECONDS : Int := 15

/-- `BACKGROUND_PROGRESS_STALE_SECONDS` from the source. -/
def BACKGROUND_PROGRESS_STALE_SECONDS : Int := 300

/-! ### `_strip_ansi` -/

/-- Fuel-driven scanner for `ANSI_ESCAPE_RE`: an escape 0x1B, a bracket,
a run over the parameter class, a run over the intermediate class, one
final byte.  The three regex character classes (parameters 0x30–0x3F,
intermediates 0x20–0x2F, final bytes 0x40–0x7E) are pairwise disjoint,
so greedy matching is
deterministic and `re.sub` removes, at each leftmost match, the escape
introducer, the maximal parameter run, the maximal intermediate run and a
single final byte.  Fuel is at least the number of characters still to scan,
and each step consumes at least one character, so starting with
`length` fuel the scanner never exhausts it. -/
def stripAnsiFuel : Nat → List Char → List Char
  | 0, l => l
  | _ + 1, [] => []
  | f + 1, '\x1b' :: '[' :: rest =>
    let r1 := rest.dropWhile (fun c => '0' ≤ c && c ≤ '?')
    let r2 := r1.dropWhile (fun c => ' ' ≤ c && c ≤ '/')
    match r2 with
    | c :: r3 =>
      if '@' ≤ c && c ≤ '~' then stripAnsiFuel f r3
      else '\x1b' :: stripAnsiFuel f ('[' :: rest)
    | [] => '\x1b' :: stripAnsiFuel f ('[' :: rest)
  | f + 1, c :: rest => c :: stripAnsiFuel f rest

/-- `_strip_ansi` from the source: removes ANSI escape sequences. -/
def _strip_ansi (s : String) : String := ⟨stripAnsiFuel s.data.length s.data⟩

/-! ### `_infer_status_from_output` -/

/-- The line-cleaning comprehension at the top of `_infer_status_from_output`:
`[_strip_ansi(line).strip() for line in lines if line and line.strip()]`. -/
def cleanLines (lines : List String) : List String :=
  (lines.filter (fun l => !(l == "") && !(pyStrip l == ""))).map
    (fun l => pyStrip (_strip_ansi l))

/-- Python slicing `l[-n:]`. -/
def takeLast (n : Nat) (l : List α) : List α := l.drop (l.length - n)

/-- The 20-line window `recent_lines = cleaned[-20:]` inspected by the
inference engine. -/
def recentOf (lines : List String) : List String := takeLast 20 (cleanLines lines)

/-- `_is_informational_prompt` from the source. -/
def _is_informational_prompt (prompt_text : String) : Bool :=
  let lowered := pyLower (pyStrip prompt_text)
  if lowered == "" then false
  else if lowered == "use /skills to list available skills" then true
  else if lowered == "implement \x7bfeature\x7d" then true
  else INFO_PROMPT_STARTS.any (fun p => pyStartsWith lowered p)

/-- The prompt-glyph literal of the source, `line.startswith("â€º ")`:
the four characters U+00E2, U+20AC, U+00BA, space (a mojibake rendering of
"› " that appears verbatim in the source file). -/
def PROMPT_GLYPH : String := "â€º "

/-- A cleaned line is prompt-shaped when it starts with the glyph. -/
def isPromptLine (l : String) : Bool := pyStartsWith l PROMPT_GLYPH

/-- `prompt_text = line[2:].strip()` for a prompt-shaped line. -/
def promptTextOf (l : String) : String := pyStrip (pyDrop l 2)

/-- Case-insensitive error-marker test for one line. -/
def isErrorLine (l : String) : Bool :=
  ERROR_PATTERNS.any (fun p => pyIn p (pyLower l))

/-- Case-insensitive done-marker test for one line. -/
def isDoneLine (l : String) : Bool :=
  DONE_PATTERNS.any (fun p => pyIn p (pyLower l))

/-- Working-pattern test for one line. -/
def isWorkingLine (l : String) : Bool :=
  WORKING_PATTERNS.any (fun p => pyIn p (pyLower l))

/-- Background-progress-pattern test for one line. -/
def isBackgroundProgressLine (l : String) : Bool :=
  BACKGROUND_PROGRESS_PATTERNS.any (fun p => pyIn p (pyLower l))

/-- Background-terminal-count test for one line
(`"background terminal running" in lowered or "background terminals running"
in lowered`). -/
def isBackgroundCountLine (l : String) : Bool :=
  pyIn "background terminal running" (pyLower l) ||
  pyIn "background terminals running" (pyLower l)

/-- Non-informational (actionable) prompt line. -/
def isNoninfoPromptLine (l : String) : Bool :=
  isPromptLine l && !(_is_informational_prompt (promptTextOf l))

/-- Informational prompt line. -/
def isInfoPromptLine (l : String) : Bool :=
  isPromptLine l && _is_informational_prompt (promptTextOf l)

/-- Index and text of the last line of the window satisfying `p` — the
`latest_*_idx` / `latest_*_line` values accumulated by the source's
single forward pass. -/
def latestWith (p : String → Bool) (ls : List String) : Option (Nat × String) :=
  (ls.enum.filter (fun x => p x.2)).getLast?

/-- Index component of a `latestWith` result (only consulted by the source
under guards that ensure the value is present). -/
def idxOf (o : Option (Nat × String)) : Nat := (o.getD (0, "")).1

/-- Line component of a `latestWith` result; `""` when absent, matching the
Python truthiness test `if latest_working_line:`. -/
def lineOf (o : Option (Nat × String)) : String := (o.getD (0, "")).2

/-- Body of `_infer_status_from_output` once the cleaned window
`recent_lines` is fixed: the strict-priority classification over the most
recent lines.  `last_activity_ts` is the optional activity timestamp and
`now_ts` stands for `int(datetime.now().timestamp())`. -/
def _infer_core (recent_lines : List String) (last_activity_ts : Option Int)
    (now_ts : Int) : String × String :=
  let recent_text := pyLower (pyJoinNL recent_lines)
  let newest_first := recent_lines.reverse
  let lw := latestWith isWorkingLine recent_lines
  let lbgc := latestWith isBackgroundCountLine recent_lines
  let lnon := latestWith isNoninfoPromptLine recent_lines
  let linf := latestWith isInfoPromptLine recent_lines
  let latest_noninfo_prompt_text :=
    match lnon with
    | some (_, l) => promptTextOf l
    | none => ""
  match newest_first.find? isErrorLine with
  | some line => ("error", pyTake line 160)
  | none =>
    let done_line := (newest_first.find? isDoneLine).getD ""
    if !(done_line == "") && lnon.isSome then
      ("done", pyTake done_line 160)
    else if lnon.isSome && (lw.isNone || idxOf lnon > idxOf lw) then
      ("needs_input",
        if !(latest_noninfo_prompt_text == "") then
          "Awaiting input: " ++ pyTake latest_noninfo_prompt_text 140
        else "Awaiting input")
    else if !(lineOf lw == "") then
      let lowered_working := pyLower (lineOf lw)
      let has_background_progress := recent_lines.any isBackgroundProgressLine
      let working_demotable :=
        DEMOTABLE_WORKING_PATTERNS.any (fun p => pyIn p lowered_working)
      let activity_age : Option Int := last_activity_ts.map (fun t => now_ts - t)
      if linf.isSome && lw.isSome && idxOf linf > idxOf lw && working_demotable
          && activity_age.isSome && activity_age.getD 0 > PROMPT_STALE_SECONDS
          && !has_background_progress then
        ("needs_input", "Awaiting input")
      else if has_background_progress && activity_age.isSome
          && activity_age.getD 0 > BACKGROUND_PROGRESS_STALE_SECONDS
          && linf.isSome && idxOf linf > idxOf lw then
        ("needs_input", "Awaiting input")
      else if lbgc.isSome && lw.isSome && idxOf lbgc ≥ idxOf lw then
        ("working", pyTake (lineOf lbgc) 160)
      else
        ("working", pyTake (lineOf lw) 160)
    else if linf.isSome &&
        (last_activity_ts.isNone
          || now_ts - last_activity_ts.getD 0 > PROMPT_STALE_SECONDS) then
      ("needs_input", "Awaiting input")
    else if (match last_activity_ts with
             | some t => decide (now_ts - t > 300)
             | none => false) then
      ("idle", "Idle")
    else if pyIn "waiting" recent_text then
      ("idle", "Waiting")
    else
      ("running", "Running")

/-- `_infer_status_from_output` from the source: clean the captured lines,
keep the last 20, and classify. -/
def _infer_status_from_output (lines : List String) (last_activity_ts : Option Int)
    (now_ts : Int) : String × String :=
  let cleaned := cleanLines lines
  if cleaned.isEmpty then ("running", "Running")
  else _infer_core (takeLast 20 cleaned) last_activity_ts now_ts

/-! ### `_normalize_state` and the reconciler's state selection -/

/-- The `mapping` dict inside `_normalize_state`. -/
def STATE_MAPPING : List (String × String) :=
  [("in_progress", "working"), ("in-progress", "working"), ("running", "working"),
   ("blocked", "needs_input"), ("complete", "done"), ("completed", "done"),
   ("failed", "error")]

/-- `_normalize_state` from the source.  The `raw_state` of interest is the
optional `state` string of a Status Record (`payload.get("state")`); `none`
models both an absent key and JSON `null`, which are falsy like `""`. -/
def _normalize_state (raw_state : Option String) : Option String :=
  match raw_state with
  | none => none
  | some s =>
    if s == "" then none
    else
      let text := pyLower (pyStrip s)
      if text == "" then none
      else
        let text :=
          (((STATE_MAPPING.find? (fun kv => kv.1 == text)).map Prod.snd).getD text)
        if ["idle", "working", "needs_input", "done", "error"].contains text then
          some text
        else none

/-- Validity of the digit part of a Python `int` literal after the first
digit: further digits, with single underscores allowed only between
digits. -/
def pyIntDigitsRest : List Char → Bool
  | [] => true
  | '_' :: c :: rest => isPyWs c = false && ('0' ≤ c && c ≤ '9') && pyIntDigitsRest rest
  | ['_'] => false
  | c :: rest => ('0' ≤ c && c ≤ '9') && pyIntDigitsRest rest

/-- Validity of a nonempty digit run for Python `int`. -/
def pyIntDigitsOk : List Char → Bool
  | [] => false
  | c :: rest => ('0' ≤ c && c ≤ '9') && pyIntDigitsRest rest

/-- Numeric value of a digit run (underscores skipped). -/
def digitsToNat (ds : List Char) : Nat :=
  (ds.filter (fun c => '0' ≤ c && c ≤ '9')).foldl
    (fun a c => 10 * a + (c.toNat - 48)) 0

/-- Python's `int(s)` on a decimal string: optional surrounding whitespace,
optional single sign, then digits (ASCII fragment; exotic Unicode digits and
whitespace are outside the inputs this code receives from tmux).  `none`
models the `ValueError` path, which the caller turns into an absent
timestamp. -/
def pyIntOfString (s : String) : Option Int :=
  let t := (pyStrip s).data
  match t with
  | '+' :: rest =>
    if pyIntDigitsOk rest then some (Int.ofNat (digitsToNat rest)) else none
  | '-' :: rest =>
    if pyIntDigitsOk rest then some (-(Int.ofNat (digitsToNat rest))) else none
  | _ => if pyIntDigitsOk t then some (Int.ofNat (digitsToNat t)) else none

/-- The per-session state selection of `api_sessions` (server.py lines
542–553): an explicit Status Record state is normalized and, when
recognized, used as-is; otherwise the tmux `session_activity` string is
parsed as an integer epoch (malformed values becoming `None`) and inference
runs over the captured lines. -/
def api_session_state (payload_state : Option String) (captured_lines : List String)
    (activity : String) (now_ts : Int) : String :=
  match _normalize_state payload_state with
  | some state => state
  | none =>
    let activity_ts := pyIntOfString activity
    (_infer_status_from_output captured_lines activity_ts now_ts).1

/-! ### Session-name sanitization and resolution -/

/-- `_safe_tmux_session_name` from the source: every character outside
`[a-zA-Z0-9_-]` becomes `-`; the result is truncated to 64 characters. -/
def _safe_tmux_session_name (session_id : String) : String :=
  let sanitized : List Char := session_id.data.map (fun c =>
    if ('a' ≤ c && c ≤ 'z') || ('A' ≤ c && c ≤ 'Z') || ('0' ≤ c && c ≤ '9')
        || c = '_' || c = '-' then c else '-')
  if sanitized.length > 64 then ⟨sanitized.take 64⟩ else ⟨sanitized⟩

/-- The candidate loop of `_resolve_tmux_session`, with its `seen` set kept
as a list: empty and already-seen candidates are skipped, and the first
candidate the multiplexer reports as existing is returned. -/
def resolveGo (has : String → Bool) : List String → List String → Option String
  | [], _ => none
  | c :: rest, seen =>
    if c == "" || seen.contains c then resolveGo has rest seen
    else if has c then some c
    else resolveGo has rest (c :: seen)

/-- `_resolve_tmux_session` from the source.  `has` stands for
`_tmux_has_session` (a read-only query to the multiplexer). -/
def _resolve_tmux_session (has : String → Bool) (session_id : String) : Option String :=
  let sanitized := _safe_tmux_session_name session_id
  resolveGo has
    [sanitized, "orch-" ++ session_id, "orch-" ++ sanitized, session_id] []

/-! ### Task-spec field extraction and the launch coordinator -/

/-- Suffix of the haystack immediately after the first occurrence of
`marker`, or `none` when the marker does not occur (the `re.search`
leftmost-match rule). -/
def findSubSuffix (marker : List Char) : List Char → Option (List Char)
  | [] => if marker.isEmpty then some [] else none
  | c :: rest =>
    if marker.isPrefixOf (c :: rest) then some ((c :: rest).drop marker.length)
    else findSubSuffix marker rest

/-- `_extract_field` from the source: the first match of
`\*\*<field>:\*\*[ \t]*(.*)` captures the rest of the line after the bold
label; the value is stripped and empty values collapse to `None`.  (The
greedy `[ \t]*` followed by `.strip()` of the capture equals stripping the
whole rest of the line.) -/
def _extract_field (content field : String) : Option String :=
  match findSubSuffix ("**" ++ field ++ ":**").data content.data with
  | none => none
  | some rest =>
    let v := pyStrip ⟨rest.takeWhile (fun c => !(c == '\n'))⟩
    if v == "" then none else some v

/-- `_derive_session_id` from the source: the first three dash-delimited
components of the task id, or the whole id when there are fewer. -/
def _derive_session_id (task_id : String) : String :=
  let parts := task_id.splitOn "-"
  if parts.length ≥ 3 then String.intercalate "-" (parts.take 3) else task_id

/-- `DEFAULT_MODELS` from `_launch_task`. -/
def DEFAULT_MODELS : List (String × String) :=
  [("codex", "o3"), ("claude", "claude-sonnet-4-20250514"),
   ("gemini", "gemini-2.5-pro")]

/-- The task-pickup prompt embedded in each agent command of
`_build_launch_command` (identical text in the three f-strings). -/
def pickupPrompt (spec_arg : String) : String :=
  "\x27Pick up task: " ++ spec_arg ++
  " - Read the spec and execute it completely. Move to in-progress, update status, commit changes with git proof before marking complete.\x27"

/-- `_build_launch_command` from the source.  `env_working_dir` models
`os.environ.get("AGENT_WORKING_DIR", "~")`.  The `none` result models the
`ValueError` raised for an unknown agent. -/
def _build_launch_command (agent model spec_arg : String)
    (env_working_dir : Option String) : Option String :=
  let working_dir := env_working_dir.getD "~"
  if agent == "codex" then
    some ("cd " ++ working_dir ++ " && codex --dangerously-bypass-approvals-and-sandbox -m "
      ++ model ++ " " ++ pickupPrompt spec_arg)
  else if agent == "claude" then
    some ("cd " ++ working_dir ++ " && claude --model " ++ model
      ++ " --permission-mode acceptEdits -p " ++ pickupPrompt spec_arg)
  else if agent == "gemini" then
    let model_flag := if !(model == "") then "-m " ++ model else ""
    some ("cd " ++ working_dir ++ " && GEMINI_API_KEY=$GEMINI_API_KEY gemini "
      ++ model_flag ++ " --yolo --prompt " ++ pickupPrompt spec_arg)
  else if agent == "human" then
    some ("echo \x27Human task: " ++ spec_arg ++ "\x27 && cat " ++ spec_arg ++ " && bash")
  else none

/-- The two queue files `_launch_task` touches for a given task id:
contents of `pending/<task_id>.md` and `in-progress/<task_id>.md`. -/
structure LaunchFS where
  pending : Option String
  inProgress : Option String
deriving DecidableEq

/-- Error outcomes of `_launch_task` (the HTTP error responses of the
source: 404 task not found, 400 missing agent, 400 unknown agent from
`_build_launch_command`, 500 tmux `new-session` failure). -/
inductive LaunchError where
  | notFound
  | missingAgent
  | unknownAgent (agent : String)
  | tmuxFailed
deriving DecidableEq

/-- The success payload of `_launch_task`. -/
structure LaunchOutcome where
  session_id : String
  agent : String
  model : String
deriving DecidableEq

/-- Continuation of `_launch_task` after the spec file has been resolved
(and, when it was pending, already moved): extract `Agent`/`Model`, apply
default models, build the agent command, start the tmux session.  `fs1` is
the queue state after the resolution step; every error return leaves it
as-is. -/
def launchResolved (task_id : String) (fs1 : LaunchFS) (content spec_path : String)
    (tmux_ok : Bool) (model_override : Option String)
    (env_working_dir : Option String) : LaunchFS × Except LaunchError LaunchOutcome :=
  let agent := (_extract_field content "Agent").getD ""
  let model :=
    match model_override with
    | some m => m
    | none => (_extract_field content "Model").getD ""
  if agent == "" then (fs1, .error .missingAgent)
  else
    let model :=
      if model == "" then
        ((DEFAULT_MODELS.find? (fun kv => kv.1 == agent)).map Prod.snd).getD model
      else model
    let session_id := _derive_session_id task_id
    let _tmux_session := _safe_tmux_session_name session_id
    match _build_launch_command agent model spec_path env_working_dir with
    | none => (fs1, .error (.unknownAgent agent))
    | some _cmd =>
      if !tmux_ok then (fs1, .error .tmuxFailed)
      else (fs1, .ok ⟨session_id, agent, model⟩)

/-- `_launch_task` from the source.  A pending spec is moved to
`in-progress` before anything else; an already-in-progress spec is used
in place; otherwise the task is not found.  `tmux_ok` models the return
code of the `tmux new-session` subprocess; `queue_root` models
`QUEUE_ROOT`. -/
def _launch_task (task_id : String) (fs : LaunchFS) (queue_root : String)
    (tmux_ok : Bool) (model_override : Option String)
    (env_working_dir : Option String) : LaunchFS × Except LaunchError LaunchOutcome :=
  let spec_path := queue_root ++ "/in-progress/" ++ task_id ++ ".md"
  match fs.pending with
  | some content =>
    launchResolved task_id ⟨none, some content⟩ content spec_path tmux_ok
      model_override env_working_dir
  | none =>
    match fs.inProgress with
    | some content =>
      launchResolved task_id fs content spec_path tmux_ok model_override
        env_working_dir
    | none => (fs, .error .notFound)

/-! ### `api_duplicate_task` -/

/-- Negation of `isPyWs`, the regex class of non-whitespace characters. -/
def isPyNonWs (c : Char) : Bool := !isPyWs c

/-- Fuel-driven model of `re.sub` for the duplicate-task patterns
`(\*\*ID:\*\*\s*)(\S+)` and `(\*\*Created:\*\*\s*)(\S+)` with replacement
"group 1 followed by the new value": at each leftmost match the literal
marker and the greedy whitespace run are kept, the following maximal
non-whitespace token is replaced by `repl`, and scanning resumes after the
token (matches are non-overlapping).  When the marker is matched but no
non-whitespace token follows, the regex fails at this position and the scan
resumes one character later.  Each step consumes at least one input
character, so `length` fuel suffices. -/
def subFieldFuel (marker repl : List Char) : Nat → List Char → List Char
  | 0, s => s
  | _ + 1, [] => []
  | f + 1, c :: rest =>
    if marker.isPrefixOf (c :: rest) && !marker.isEmpty then
      let after := (c :: rest).drop marker.length
      let ws := after.takeWhile isPyWs
      let afterWs := after.dropWhile isPyWs
      if afterWs.isEmpty then c :: subFieldFuel marker repl f rest
      else marker ++ ws ++ repl ++ subFieldFuel marker repl f (afterWs.dropWhile isPyNonWs)
    else c :: subFieldFuel marker repl f rest

/-- One `re.sub` call of `api_duplicate_task`, for the bold field label
`**<field>:**`. -/
def pyReSubField (field repl content : String) : String :=
  let marker := ("**" ++ field ++ ":**").data
  ⟨subFieldFuel marker repl.data content.data.length content.data⟩

/-- The content rewriting of `api_duplicate_task`: the embedded ID token is
replaced by the new task id, then the embedded Created token by today's
date. -/
def dupContent (content new_task_id today : String) : String :=
  pyReSubField "Created" today (pyReSubField "ID" new_task_id content)

/-- The fixed queue-state directories, in the order the route handlers
probe them. -/
def QUEUE_STATES : List String :=
  ["pending", "in-progress", "blocked", "completed", "learning"]

/-- The queue root as a map from state directory and task id to the spec
file content, when the file exists. -/
abbrev QueueFS := String → String → Option String

/-- Writing `<state>/<tid>.md`. -/
def fsWrite (fs : QueueFS) (state tid content : String) : QueueFS :=
  fun s t => if s == state && t == tid then some content else fs s t

/-- The search loop shared by the task route handlers: the first state
directory containing `<task_id>.md`, with the file's content. -/
def findTaskState (fs : QueueFS) (task_id : String) : Option (String × String) :=
  QUEUE_STATES.findSome? (fun st => (fs st task_id).map (fun c => (st, c)))

/-- `api_duplicate_task` from the source.  The freshly generated id
(`generate_task_id(title + " (copy)")`, a timestamp plus slug and hence
clock-dependent) is passed in as `new_task_id`, and today's date as
`today`; `none` models the 404 response.  The result carries the state the
original was found in, the rewritten content, and the queue after the copy
is saved to `pending`. -/
def api_duplicate_task (fs : QueueFS) (task_id new_task_id today : String) :
    Option (String × String × QueueFS) :=
  match findTaskState fs task_id with
  | none => none
  | some (st, content) =>
    let new_content := dupContent content new_task_id today
    some (st, new_content, fsWrite fs "pending" new_task_id new_content)

/-- A task-spec document shape with embedded `**ID:**` and `**Created:**`
labels: an arbitrary prefix, the ID label with its whitespace run and value
token, a middle section, the Created label with its whitespace run and value
token, and an arbitrary remainder (which carries the `Priority`, `Agent`,
`Model` lines and the body in the documents this system writes). -/
def fieldDoc (A W1 T1 P2 W2 T2 P3 : List Char) : String :=
  ⟨A ++ ("**ID:**".data ++ (W1 ++ (T1 ++
    (P2 ++ ("**Created:**".data ++ (W2 ++ (T2 ++ P3)))))))⟩

/-! ### The pending-queue sort of `api_queue` -/

/-- `priority_sort_key` from the source.  In the source the first disjunct
is `re.search(rf"\\bP{i}\\b", p)`: inside an rf-string `\\b` denotes a
literal backslash followed by `b`, so the regex matches only strings
containing the five-character sequence backslash-b-P-i-backslash-b; it is
therefore subsumed by the plain containment test `f"P{i}" in p` that
follows it, and both disjuncts are kept here verbatim. -/
def priority_sort_key (priority : String) : Nat :=
  let p := pyUpper priority
  if pyIn "\\bP0\\b" p || pyIn "P0" p then 0
  else if pyIn "\\bP1\\b" p || pyIn "P1" p then 1
  else if pyIn "\\bP2\\b" p || pyIn "P2" p then 2
  else if pyIn "\\bP3\\b" p || pyIn "P3" p then 3
  else 99

/-- ASCII letter test (the `[A-Z]` class with `re.IGNORECASE`). -/
def isAsciiLetter (c : Char) : Bool :=
  ('A' ≤ c && c ≤ 'Z') || ('a' ≤ c && c ≤ 'z')

/-- ASCII digit test (the `[0-9]` class). -/
def isAsciiDigit (c : Char) : Bool := '0' ≤ c && c ≤ '9'

/-- Match of `-([A-Z])([0-9]+)-` (case-insensitive) anchored at the head of
the list: a dash, a letter, a maximal nonempty digit run, a dash.  The
digit class and the dash are disjoint, so the greedy match is
deterministic. -/
def groupNumHere : List Char → Option (Char × Nat)
  | '-' :: c :: rest =>
    if isAsciiLetter c then
      let ds := rest.takeWhile isAsciiDigit
      if !ds.isEmpty && ((rest.drop ds.length).head? == some '-') then
        some (charUpper c, digitsToNat ds)
      else none
    else none
  | _ => none

/-- `re.search` of `-([A-Z])([0-9]+)-` over the task id: leftmost match,
upper-cased group letter and numeric value of the digits. -/
def groupNumScan : List Char → Option (Char × Nat)
  | [] => none
  | c :: rest =>
    match groupNumHere (c :: rest) with
    | some r => some r
    | none => groupNumScan rest

/-- A pending-queue entry as consumed by `pending_sort_key`: the parsed
task id and priority fields of the spec. -/
structure TaskItem where
  id : String
  priority : String
deriving DecidableEq

/-- `pending_sort_key` from the source: priority rank, then the embedded
group letter (default `Z`), then the numeric suffix (default 9999), then
the id.  The single-character group string is represented by its code
point, which orders identically to Python's string comparison. -/
def pending_sort_key (item : TaskItem) : Nat × Nat × Nat × String :=
  let task_id := item.id
  let m := groupNumScan task_id.data
  let group : Char := (m.map Prod.fst).getD 'Z'
  let num : Nat := (m.map Prod.snd).getD 9999
  (priority_sort_key item.priority, group.toNat, num, task_id)

/-- Lexicographic comparison of sort keys, as Python compares the
4-tuples returned by `pending_sort_key`. -/
def keyLe (a b : Nat × Nat × Nat × String) : Bool :=
  decide (a.1 < b.1) || (decide (a.1 = b.1) &&
    (decide (a.2.1 < b.2.1) || (decide (a.2.1 = b.2.1) &&
      (decide (a.2.2.1 < b.2.2.1) || (decide (a.2.2.1 = b.2.2.1) &&
        decide (a.2.2.2 ≤ b.2.2.2))))))

/-- Item comparison induced by `pending_sort_key`. -/
def pendingLe (a b : TaskItem) : Bool := keyLe (pending_sort_key a) (pending_sort_key b)

/-- `result["pending"].sort(key=pending_sort_key)`: a stable sort by the
key order (Python's `list.sort` is stable; merge sort is the stable sort
available here). -/
def sortPending (items : List TaskItem) : List TaskItem :=
  items.mergeSort pendingLe

/-! ### Claim-statement predicates -/

/-- The done rule as the specification words it: a completion marker at some
window index `i` and a non-informational interactive prompt at a strictly
later index `j`.  Used to compare the specified rule with the code's
actual rule. -/
def spec_done_marker_then_prompt (recent : List String) : Prop :=
  ∃ i < recent.length, ∃ j < recent.length,
    i < j ∧ isDoneLine (recent.getD i "") = true ∧
    isNoninfoPromptLine (recent.getD j "") = true

/-! ### Helper lemmas -/

/-- A nonempty list has a nonempty 20-line tail window. -/
theorem takeLast20_eq_nil_iff (l : List String) : takeLast 20 l = [] ↔ l = [] := by
  unfold takeLast
  constructor
  · intro h
    rcases l with _ | ⟨a, t⟩
    · rfl
    · exfalso
      have hlen := congrArg List.length h
      simp [List.length_drop] at hlen
      omega
  · intro h; subst h; rfl

/-- The inference engine on a nonempty cleaned window is the core
classification of the last 20 lines. -/
theorem infer_eq_core (lines : List String) (ts : Option Int) (now : Int)
    (h : cleanLines lines ≠ []) :
    _infer_status_from_output lines ts now = _infer_core (recentOf lines) ts now := by
  unfold _infer_status_from_output recentOf
  have : (cleanLines lines).isEmpty = false := by
    cases hc : cleanLines lines
    · exact absurd hc h
    · rfl
  simp [this]

/-- C2: for every output window whose inspected lines contain an error
marker, inference returns `error` with the newest matching line truncated
to 160 characters, regardless of done markers, working lines, prompt lines
or the last-activity timestamp. -/
theorem C2_error_priority (lines : List String) (ts : Option Int) (now : Int)
    (l : String) (h : (recentOf lines).reverse.find? isErrorLine = some l) :
    _infer_status_from_output lines ts now = ("error", pyTake l 160) := by
  have hrne : recentOf lines ≠ [] := by
    intro hn; rw [hn] at h; simp at h
  have hcl : cleanLines lines ≠ [] := by
    intro hc; apply hrne; unfold recentOf; rw [hc]; rfl
  rw [infer_eq_core _ _ _ hcl]
  simp only [_infer_core]
  rw [h]

/-- C2 witness: a concrete window with an error marker classifies as
`error` with that line as message. -/
theorem C2_error_priority_witness :
    ((recentOf ["task complete", "error: boom"]).reverse.find? isErrorLine
      = some "error: boom")
    ∧ _infer_status_from_output ["task complete", "error: boom"] (some 5) 10
      = ("error", pyTake "error: boom" 160) :=
  ⟨by decide, C2_error_priority ["task complete", "error: boom"] (some 5) 10
    "error: boom" (by decide)⟩

/-- C10: the inference result depends only on the cleaned 20-line window:
two inputs with the same window (hence the same last 20 non-empty
ANSI-stripped lines) classify identically, so markers confined to older
lines never affect the result. -/
theorem C10_window_dependency (ls1 ls2 : List String) (ts : Option Int) (now : Int)
    (h : recentOf ls1 = recentOf ls2) :
    _infer_status_from_output ls1 ts now = _infer_status_from_output ls2 ts now := by
  by_cases h1 : cleanLines ls1 = []
  · have hr1 : recentOf ls1 = [] := by unfold recentOf; rw [h1]; rfl
    have h2 : cleanLines ls2 = [] := by
      apply (takeLast20_eq_nil_iff (cleanLines ls2)).mp
      rw [h] at hr1
      exact hr1
    simp [_infer_status_from_output, h1, h2]
  · have h2 : cleanLines ls2 ≠ [] := by
      intro hc
      apply h1
      have hr2 : recentOf ls2 = [] := by unfold recentOf; rw [hc]; rfl
      rw [← h] at hr2
      exact (takeLast20_eq_nil_iff (cleanLines ls1)).mp hr2
    rw [infer_eq_core _ _ _ h1, infer_eq_core _ _ _ h2, h]

/-- C10 witness: an error marker pushed out of the 20-line window by 20
newer lines leaves the classification identical to the window alone. -/
theorem C10_window_dependency_witness :
    (recentOf ("error: kaboom" :: List.replicate 20 "ok")
      = recentOf (List.replicate 20 "ok"))
    ∧ _infer_status_from_output ("error: kaboom" :: List.replicate 20 "ok") none 0
      = _infer_status_from_output (List.replicate 20 "ok") none 0 :=
  ⟨by decide,
   C10_window_dependency ("error: kaboom" :: List.replicate 20 "ok")
     (List.replicate 20 "ok") none 0 (by decide)⟩

/-- C3: an explicit Status Record state that normalizes to a recognized
value is used as the session state without consulting inference (whatever
the captured output or activity string); the normalization maps the
documented aliases; when normalization fails the state is inferred from
the captured output with the activity string parsed as an integer
(malformed values becoming an absent timestamp). -/
theorem C3_record_priority :
    (∀ (ps : Option String) (lines : List String) (act : String) (now : Int)
        (s : String), _normalize_state ps = some s →
        api_session_state ps lines act now = s)
    ∧ _normalize_state (some "in_progress") = some "working"
    ∧ _normalize_state (some "running") = some "working"
    ∧ _normalize_state (some "blocked") = some "needs_input"
    ∧ _normalize_state (some "complete") = some "done"
    ∧ _normalize_state (some "completed") = some "done"
    ∧ _normalize_state (some "failed") = some "error"
    ∧ (∀ (ps : Option String) (lines : List String) (act : String) (now : Int),
        _normalize_state ps = none →
        api_session_state ps lines act now
          = (_infer_status_from_output lines (pyIntOfString act) now).1)
    ∧ pyIntOfString "" = none
    ∧ pyIntOfString "not-a-number" = none
    ∧ pyIntOfString "1717171717" = some 1717171717 := by
  refine ⟨?_, by decide, by decide, by decide, by decide, by decide, by decide,
    ?_, by decide, by decide, by decide⟩
  · intro ps lines act now s h
    unfold api_session_state
    rw [h]
  · intro ps lines act now h
    unfold api_session_state
    rw [h]

/-- C3 witness: an explicit `working` record wins over captured output
full of error markers, and an unrecognized record state falls back to
inference. -/
theorem C3_record_priority_witness :
    _normalize_state (some "In_Progress ") = some "working"
    ∧ api_session_state (some "In_Progress ") ["error: kaboom"] "42" 0 = "working"
    ∧ api_session_state (some "mystery") ["error: kaboom"] "oops" 0
      = (_infer_status_from_output ["error: kaboom"] (pyIntOfString "oops") 0).1 :=
  ⟨by decide,
   C3_record_priority.1 (some "In_Progress ") ["error: kaboom"] "42" 0 "working"
     (by decide),
   C3_record_priority.2.2.2.2.2.2.2.1 (some "mystery") ["error: kaboom"] "oops" 0
     (by decide)⟩

/-- The candidate loop with a `seen` set of already-probed (hence
non-existing) names returns the first nonempty existing candidate. -/
theorem resolveGo_eq_find (has : String → Bool) :
    ∀ (cands seen : List String), (∀ s ∈ seen, has s = false) →
      resolveGo has cands seen = cands.find? (fun c => !(c == "") && has c) := by
  intro cands
  induction cands with
  | nil => intro seen _; rfl
  | cons c rest ih =>
    intro seen h
    unfold resolveGo
    rcases hce : (c == "") with _ | _
    · rcases hseen : seen.contains c with _ | _
      · simp only [hce, hseen, Bool.or_self, Bool.false_eq_true, if_false]
        rcases hhas : has c with _ | _
        · simp only [Bool.false_eq_true, if_false, List.find?, hce, hhas,
            Bool.false_and, Bool.and_false]
          exact ih (c :: seen) (by
            intro s hs
            rcases List.mem_cons.mp hs with rfl | hs
            · exact hhas
            · exact h s hs)
        · simp [List.find?, hce, hhas]
      · have hhas : has c = false := h c (by
          have := hseen
          exact List.mem_of_elem_eq_true hseen)
        simp only [hce, hseen, Bool.false_or, if_true, List.find?, hhas,
          Bool.and_false]
        exact ih seen h
    · simp only [hce, Bool.true_or, if_true, List.find?, Bool.not_true,
        Bool.false_and]
      exact ih seen h

/-- C6: `_resolve_tmux_session` probes, in order, the sanitized id, the
legacy-prefixed raw id, the legacy-prefixed sanitized id and the raw id,
returning the first name the multiplexer reports as existing (`none` when
none exists); with the three concrete scenarios of the specification. -/
theorem C6_resolve_order :
    (∀ (has : String → Bool) (id : String),
      _resolve_tmux_session has id =
        [_safe_tmux_session_name id, "orch-" ++ id,
         "orch-" ++ _safe_tmux_session_name id, id].find?
          (fun c => !(c == "") && has c))
    ∧ _resolve_tmux_session (fun n => n == "orch-task-20240101-001")
        "task-20240101-001" = some "orch-task-20240101-001"
    ∧ _resolve_tmux_session (fun n => n == "task-20240101-001")
        "task-20240101-001" = some "task-20240101-001"
    ∧ _resolve_tmux_session (fun _ => false) "task-20240101-001" = none := by
  refine ⟨?_, by decide, by decide, by decide⟩
  intro has id
  unfold _resolve_tmux_session
  exact resolveGo_eq_find has _ [] (by intro s hs; cases hs)

/-- Every branch of the post-resolution phase of `_launch_task` leaves the
queue state it was given untouched. -/
theorem launchResolved_fst (task_id : String) (fs1 : LaunchFS)
    (content spec_path : String) (tmux_ok : Bool)
    (model_override env_working_dir : Option String) :
    (launchResolved task_id fs1 content spec_path tmux_ok model_override
      env_working_dir).1 = fs1 := by
  unfold launchResolved
  dsimp only
  repeat' split
  all_goals rfl

/-- `_extract_field` never returns an empty value. -/
theorem _extract_field_ne_empty (content field v : String)
    (h : _extract_field content field = some v) : v ≠ "" := by
  unfold _extract_field at h
  rcases hf : findSubSuffix ("**" ++ field ++ ":**").data content.data with _ | rest
  · rw [hf] at h; exact absurd h (by simp)
  · rw [hf] at h
    simp only at h
    split at h
    · exact absurd h (by simp)
    · rename_i hne
      intro hv
      apply absurd hne
      simp only [Option.some.injEq] at h
      rw [h, hv]
      simp

/-- A recognized agent makes the post-resolution phase succeed when the
multiplexer call succeeds. -/
theorem launchResolved_ok_of_known (task_id : String) (fs1 : LaunchFS)
    (content spec_path : String) (model_override env_working_dir : Option String)
    (a : String) (h : _extract_field content "Agent" = some a)
    (ha : a = "codex" ∨ a = "claude" ∨ a = "gemini" ∨ a = "human") :
    ∃ r, (launchResolved task_id fs1 content spec_path true model_override
      env_working_dir).2 = .ok r := by
  have hne : a ≠ "" := _extract_field_ne_empty content "Agent" a h
  rcases ha with rfl | rfl | rfl | rfl <;>
    simp [launchResolved, h, _build_launch_command]

/-- C5: launching moves a pending spec to in-progress; a second immediate
launch (spec already in in-progress) succeeds and leaves it there; a task
in neither directory fails with the not-found error. -/
theorem C5_launch_transitions :
    (∀ (tid c : String) (ip : Option String) (qr : String) (tOk : Bool)
        (ov wd : Option String),
      (_launch_task tid ⟨some c, ip⟩ qr tOk ov wd).1 = ⟨none, some c⟩)
    ∧ (∀ (tid c : String) (ip : Option String) (qr : String) (ov wd : Option String)
        (a : String), _extract_field c "Agent" = some a →
        (a = "codex" ∨ a = "claude" ∨ a = "gemini" ∨ a = "human") →
        ((_launch_task tid ⟨some c, ip⟩ qr true ov wd).1 = ⟨none, some c⟩
          ∧ (∃ r, (_launch_task tid ⟨some c, ip⟩ qr true ov wd).2 = .ok r)
          ∧ (_launch_task tid ⟨none, some c⟩ qr true ov wd).1 = ⟨none, some c⟩
          ∧ (∃ r, (_launch_task tid ⟨none, some c⟩ qr true ov wd).2 = .ok r)))
    ∧ (∀ (tid qr : String) (tOk : Bool) (ov wd : Option String),
        _launch_task tid ⟨none, none⟩ qr tOk ov wd
          = (⟨none, none⟩, .error .notFound)) := by
  refine ⟨?_, ?_, ?_⟩
  · intro tid c ip qr tOk ov wd
    exact launchResolved_fst tid ⟨none, some c⟩ c _ tOk ov wd
  · intro tid c ip qr ov wd a h ha
    refine ⟨launchResolved_fst tid ⟨none, some c⟩ c _ true ov wd,
      launchResolved_ok_of_known tid ⟨none, some c⟩ c _ ov wd a h ha,
      launchResolved_fst tid ⟨none, some c⟩ c _ true ov wd,
      launchResolved_ok_of_known tid ⟨none, some c⟩ c _ ov wd a h ha⟩
  · intro tid qr tOk ov wd
    rfl

/-- C5 witness: a concrete claude-agent spec launches from pending,
launches again from in-progress, and a missing spec is not found. -/
theorem C5_launch_transitions_witness :
    (_extract_field "**Agent:** claude\n**Model:** opus\n" "Agent" = some "claude")
    ∧ ((_launch_task "task-1-2-3" ⟨some "**Agent:** claude\n**Model:** opus\n", none⟩
          "q" true none none).1
        = ⟨none, some "**Agent:** claude\n**Model:** opus\n"⟩
      ∧ (∃ r, (_launch_task "task-1-2-3"
          ⟨some "**Agent:** claude\n**Model:** opus\n", none⟩ "q" true none none).2
          = .ok r)
      ∧ (_launch_task "task-1-2-3" ⟨none, some "**Agent:** claude\n**Model:** opus\n"⟩
          "q" true none none).1
        = ⟨none, some "**Agent:** claude\n**Model:** opus\n"⟩
      ∧ (∃ r, (_launch_task "task-1-2-3"
          ⟨none, some "**Agent:** claude\n**Model:** opus\n"⟩ "q" true none none).2
          = .ok r)) :=
  ⟨by decide,
   C5_launch_transitions.2.1 "task-1-2-3" "**Agent:** claude\n**Model:** opus\n"
     none "q" none none "claude" (by decide) (Or.inr (Or.inl rfl))⟩

/-- C9: when launching fails after the spec was found in pending — missing
`Agent` field, unrecognized agent value, or failed multiplexer session
creation — the spec has already been moved to in-progress and stays there:
the move is not rolled back. -/
theorem C9_no_rollback :
    (∀ (tid c : String) (ip : Option String) (qr : String) (tOk : Bool)
        (ov wd : Option String), _extract_field c "Agent" = none →
      _launch_task tid ⟨some c, ip⟩ qr tOk ov wd
        = (⟨none, some c⟩, .error .missingAgent))
    ∧ (∀ (tid c : String) (ip : Option String) (qr : String) (tOk : Bool)
        (ov wd : Option String) (a : String), _extract_field c "Agent" = some a →
        a ≠ "codex" → a ≠ "claude" → a ≠ "gemini" → a ≠ "human" →
        _launch_task tid ⟨some c, ip⟩ qr tOk ov wd
          = (⟨none, some c⟩, .error (.unknownAgent a)))
    ∧ (∀ (tid c : String) (ip : Option String) (qr : String)
        (ov wd : Option String) (a : String), _extract_field c "Agent" = some a →
        (a = "codex" ∨ a = "claude" ∨ a = "gemini" ∨ a = "human") →
        _launch_task tid ⟨some c, ip⟩ qr false ov wd
          = (⟨none, some c⟩, .error .tmuxFailed)) := by
  refine ⟨?_, ?_, ?_⟩
  · intro tid c ip qr tOk ov wd h
    simp [_launch_task, launchResolved, h]
  · intro tid c ip qr tOk ov wd a h h1 h2 h3 h4
    have hne : a ≠ "" := _extract_field_ne_empty c "Agent" a h
    simp [_launch_task, launchResolved, h, hne, _build_launch_command, h1, h2, h3, h4]
  · intro tid c ip qr ov wd a h ha
    have hne : a ≠ "" := _extract_field_ne_empty c "Agent" a h
    rcases ha with rfl | rfl | rfl | rfl <;>
      simp [_launch_task, launchResolved, h, _build_launch_command]

/-- C9 witness: a spec without an `Agent` field, a spec with agent
`cobol`, and a failing multiplexer all leave the concrete spec in
in-progress while reporting the corresponding error. -/
theorem C9_no_rollback_witness :
    (_extract_field "just a prompt" "Agent" = none
      ∧ _extract_field "**Agent:** cobol\n" "Agent" = some "cobol"
      ∧ _extract_field "**Agent:** codex\n" "Agent" = some "codex")
    ∧ _launch_task "t-1" ⟨some "just a prompt", none⟩ "q" true none none
      = (⟨none, some "just a prompt"⟩, .error .missingAgent)
    ∧ _launch_task "t-1" ⟨some "**Agent:** cobol\n", none⟩ "q" true none none
      = (⟨none, some "**Agent:** cobol\n"⟩, .error (.unknownAgent "cobol"))
    ∧ _launch_task "t-1" ⟨some "**Agent:** codex\n", none⟩ "q" false none none
      = (⟨none, some "**Agent:** codex\n"⟩, .error .tmuxFailed) :=
  ⟨⟨by decide, by decide, by decide⟩,
   C9_no_rollback.1 "t-1" "just a prompt" none "q" true none none (by decide),
   C9_no_rollback.2.1 "t-1" "**Agent:** cobol\n" none "q" true none none "cobol"
     (by decide) (by decide) (by decide) (by decide) (by decide),
   C9_no_rollback.2.2 "t-1" "**Agent:** codex\n" none "q" none none "codex"
     (by decide) (Or.inl rfl)⟩

/-- Dropping a predicate from the front of `a ++ [c]` keeps the final `c`
when `c` fails the predicate. -/
theorem dropWhile_append_single {p : Char → Bool} {c : Char} (h : p c = false) :
    ∀ a : List Char, List.dropWhile p (a ++ [c]) = List.dropWhile p a ++ [c] := by
  intro a
  induction a with
  | nil => simp [List.dropWhile, h]
  | cons d a ih =>
    simp only [List.cons_append, List.dropWhile]
    cases hd : p d
    · simp
    · simpa using ih

/-- Stripping a list whose head is not whitespace keeps that head. -/
theorem listStrip_cons_head {c : Char} (h : isPyWs c = false) (xs : List Char) :
    ∃ ys, listStrip (c :: xs) = c :: ys := by
  unfold listStrip
  rw [List.dropWhile_cons_of_neg (by simp [h])]
  rw [show (c :: xs).reverse = xs.reverse ++ [c] by simp]
  rw [dropWhile_append_single h]
  exact ⟨(List.dropWhile isPyWs xs.reverse).reverse, by simp⟩

/-- Every prompt-shaped line is classified non-informational: the glyph
literal is four characters, `line[2:]` removes only two of them, and the
surviving stray character defeats every informational-prompt check.  As a
consequence `latest_info_prompt_idx` is never set and the staleness
demotion of the working state is unreachable. -/
theorem isInfoPromptLine_false (l : String) : isInfoPromptLine l = false := by
  unfold isInfoPromptLine
  cases hp : isPromptLine l
  · simp
  · simp only [Bool.true_and]
    unfold isPromptLine pyStartsWith at hp
    obtain ⟨t, ht⟩ := List.isPrefixOf_iff_prefix.mp hp
    have hg : PROMPT_GLYPH.data = 'â' :: '€' :: 'º' :: ' ' :: [] := rfl
    have hdrop : (pyDrop l 2).data = 'º' :: ' ' :: t := by
      unfold pyDrop
      rw [← ht, hg]
      rfl
    have h1 : ∃ ys, (promptTextOf l).data = 'º' :: ys := by
      unfold promptTextOf pyStrip
      rw [hdrop]
      exact listStrip_cons_head (by decide) _
    obtain ⟨ys, hys⟩ := h1
    unfold _is_informational_prompt
    have h2 : ∃ zs, (pyLower (pyStrip (promptTextOf l))).data = 'º' :: zs := by
      unfold pyStrip
      rw [hys]
      obtain ⟨ws, hws⟩ := listStrip_cons_head (c := 'º') (by decide) ys
      rw [hws]
      unfold pyLower
      exact ⟨ws.map charLower, by simp [charLower]⟩
    obtain ⟨zs, hzs⟩ := h2
    set low := pyLower (pyStrip (promptTextOf l)) with hlow
    have hne : ∀ s : String, s.data.head? = some 'u' → (low == s) = false := by
      intro s hs
      rw [beq_eq_false_iff_ne]
      intro he
      rw [he] at hzs
      rw [hzs] at hs
      simp at hs
    have hni : ∀ s : String, s.data.head? = some 'i' → (low == s) = false := by
      intro s hs
      rw [beq_eq_false_iff_ne]
      intro he
      rw [he] at hzs
      rw [hzs] at hs
      simp at hs
    have hempty : (low == "") = false := by
      rw [beq_eq_false_iff_ne]
      intro he
      rw [he] at hzs
      simp at hzs
    dsimp only
    rw [hempty, hne "use /skills to list available skills" rfl,
      hni "implement \x7bfeature\x7d" rfl]
    simp only [Bool.false_eq_true, if_false, INFO_PROMPT_STARTS, List.any]
    unfold pyStartsWith
    rw [hzs]
    rw [show ("use /" : String).data = 'u' :: "se /".data from rfl]
    simp [List.isPrefixOf]

/-- C4: evaluation of the inference engine at the specification's staleness
scenario.  A demotable working line followed by the informational prompt
returns `needs_input` whatever the activity age — at 5 seconds as well as at
20 — because the prompt is misclassified as actionable (see
`isInfoPromptLine_false`, included here), so the claimed demotion behaviour
(`working` when fresh, demotion only when stale) does not occur. -/
theorem C4_demotion_unreachable :
    (∀ l : String, isInfoPromptLine l = false)
    ∧ _infer_status_from_output
        ["working (2m 10s)", "â€º use /skills to list available skills"]
        (some 999995) 1000000
      = ("needs_input", "Awaiting input: º use /skills to list available skills")
    ∧ _infer_status_from_output
        ["working (2m 10s)", "â€º use /skills to list available skills"]
        (some 999980) 1000000
      = ("needs_input", "Awaiting input: º use /skills to list available skills") :=
  ⟨isInfoPromptLine_false, by decide, by decide⟩

/-- The source's single forward pass records a latest index for `p` exactly
when some window line satisfies `p`. -/
theorem latestWith_isSome (p : String → Bool) (ls : List String) :
    (latestWith p ls).isSome = ls.any p := by
  unfold latestWith
  have key : ls.filter p = (ls.enum.filter fun x => p x.2).map Prod.snd := by
    calc ls.filter p = List.filter p (List.map Prod.snd ls.enum) := by
          rw [List.enum_map_snd]
      _ = List.map Prod.snd (List.filter (p ∘ Prod.snd) ls.enum) :=
          List.filter_map Prod.snd ls.enum
      _ = (ls.enum.filter fun x => p x.2).map Prod.snd := rfl
  cases hany : ls.any p
  · have hfil : ls.filter p = [] := by
      rw [List.filter_eq_nil_iff]
      intro a ha
      rw [List.any_eq_false] at hany
      exact hany a ha
    have henum : (ls.enum.filter fun x => p x.2) = [] := by
      rw [hfil] at key
      exact List.map_eq_nil_iff.mp key.symm
    rw [henum]
    rfl
  · have hfil : ls.filter p ≠ [] := by
      intro h0
      rw [List.filter_eq_nil_iff] at h0
      rw [List.any_eq_true] at hany
      obtain ⟨x, hx, hpx⟩ := hany
      exact h0 x hx hpx
    have henum : (ls.enum.filter fun x => p x.2) ≠ [] := by
      intro h0
      apply hfil
      rw [key, h0]
      rfl
    exact List.getLast?_isSome.mpr henum

/-- C1 (amended): the engine returns `done` exactly when the cleaned window
is nonempty, contains no error-marker line, contains a completion-marker
line, and contains a non-informational prompt line anywhere — the prompt is
not required to come after the marker. -/
theorem C1_done_requires_prompt_anywhere (lines : List String) (ts : Option Int)
    (now : Int) :
    (_infer_status_from_output lines ts now).1 = "done" ↔
      (recentOf lines ≠ []
        ∧ (recentOf lines).any isErrorLine = false
        ∧ (recentOf lines).any isDoneLine = true
        ∧ (recentOf lines).any isNoninfoPromptLine = true) := by
  by_cases hcl : cleanLines lines = []
  · have hr : recentOf lines = [] := by unfold recentOf; rw [hcl]; rfl
    constructor
    · intro h
      exfalso
      revert h
      simp [_infer_status_from_output, hcl]
    · rintro ⟨h1, -⟩
      exact absurd hr h1
  · have hrne : recentOf lines ≠ [] := by
      intro h0
      exact hcl ((takeLast20_eq_nil_iff (cleanLines lines)).mp h0)
    rw [infer_eq_core _ _ _ hcl]
    simp only [_infer_core]
    rcases hE : (recentOf lines).reverse.find? isErrorLine with _ | el
    · have hEany : (recentOf lines).any isErrorLine = false := by
        rw [List.any_eq_false]
        intro x hx
        exact (List.find?_eq_none.mp hE) x (List.mem_reverse.mpr hx)
      rcases hD : (recentOf lines).reverse.find? isDoneLine with _ | dl
      · have hDany : (recentOf lines).any isDoneLine = false := by
          rw [List.any_eq_false]
          intro x hx
          exact (List.find?_eq_none.mp hD) x (List.mem_reverse.mpr hx)
        constructor
        · intro h
          exfalso
          revert h
          simp only [Option.getD_none, beq_self_eq_true, Bool.not_true,
            Bool.false_and, Bool.false_eq_true, if_false]
          repeat' split
          all_goals simp
        · rintro ⟨-, -, h3, -⟩
          rw [hDany] at h3
          cases h3
      · have hdl : isDoneLine dl = true := List.find?_some hD
        have hdne : (dl == "") = false := by
          rcases hb : (dl == "") with _ | _
          · rfl
          · exfalso
            rw [beq_iff_eq] at hb
            rw [hb] at hdl
            exact absurd hdl (by decide)
        have hDany : (recentOf lines).any isDoneLine = true := by
          rw [List.any_eq_true]
          exact ⟨dl, List.mem_reverse.mp (List.mem_of_find?_eq_some hD), hdl⟩
        rcases hnon : (latestWith isNoninfoPromptLine (recentOf lines)).isSome with _ | _
        · have hNany : (recentOf lines).any isNoninfoPromptLine = false := by
            rw [← latestWith_isSome]
            exact hnon
          constructor
          · intro h
            exfalso
            revert h
            simp only [Option.getD_some, hdne, Bool.not_false, hnon,
              Bool.and_false, Bool.false_eq_true, if_false]
            repeat' split
            all_goals simp
          · rintro ⟨-, -, -, h4⟩
            rw [hNany] at h4
            cases h4
        · have hNany : (recentOf lines).any isNoninfoPromptLine = true := by
            rw [← latestWith_isSome]
            exact hnon
          constructor
          · intro _
            exact ⟨hrne, hEany, hDany, hNany⟩
          · intro _
            simp [hdne, hnon]
    · have hEany : (recentOf lines).any isErrorLine = true := by
        rw [List.any_eq_true]
        exact ⟨el, List.mem_reverse.mp (List.mem_of_find?_eq_some hE),
          List.find?_some hE⟩
      constructor
      · intro h
        exact absurd h (by simp)
      · rintro ⟨-, h2, -⟩
        rw [hEany] at h2
        cases h2

/-- C1 counterexample: a window whose only non-informational prompt comes
BEFORE the completion marker is still classified `done`, refuting the
claim that a prompt must appear after (later than) the marker. -/
theorem C1_prompt_after_marker_counterexample :
    (_infer_status_from_output ["â€º fix this", "task complete"] none 1000).1 = "done"
    ∧ ¬ spec_done_marker_then_prompt (recentOf ["â€º fix this", "task complete"]) := by
  constructor
  · decide
  · unfold spec_done_marker_then_prompt
    decide

/-- The sort key viewed through the lexicographic order on products, which
is the order Python uses to compare the key tuples. -/
def keyLex (k : Nat × Nat × Nat × String) : Lex (Nat × Lex (Nat × Lex (Nat × String))) :=
  toLex (k.1, toLex (k.2.1, toLex (k.2.2.1, k.2.2.2)))

/-- `keyLe` is the lexicographic order on key tuples. -/
theorem keyLe_iff (a b : Nat × Nat × Nat × String) :
    keyLe a b = true ↔ keyLex a ≤ keyLex b := by
  obtain ⟨a1, a2, a3, a4⟩ := a
  obtain ⟨b1, b2, b3, b4⟩ := b
  simp [keyLe, keyLex, Prod.Lex.le_iff]

/-- Transitivity of the pending-queue comparison. -/
theorem pendingLe_trans (a b c : TaskItem) (h1 : pendingLe a b) (h2 : pendingLe b c) :
    pendingLe a c := by
  unfold pendingLe at h1 h2 ⊢
  rw [keyLe_iff] at h1 h2 ⊢
  exact le_trans h1 h2

/-- Totality of the pending-queue comparison. -/
theorem pendingLe_total (a b : TaskItem) : pendingLe a b || pendingLe b a := by
  rcases le_total (keyLex (pending_sort_key a)) (keyLex (pending_sort_key b)) with h | h
  · have := (keyLe_iff _ _).mpr h
    simp [pendingLe, this]
  · have := (keyLe_iff _ _).mpr h
    simp [pendingLe, this]

unseal List.merge List.mergeSort in
/-- C8: the pending listing is a permutation of its input sorted by the key
order — priority rank first, then embedded group letter, then numeric
suffix, then id — and the specification's concrete scenario (A01 at P1,
A02 at P0, H01 at P1) lists A02, A01, H01. -/
theorem C8_pending_sort :
    (∀ items : List TaskItem, List.Perm (sortPending items) items)
    ∧ (∀ items : List TaskItem,
        (sortPending items).Pairwise (fun a b => pendingLe a b = true))
    ∧ sortPending [⟨"task-20250101-090000-A01-x", "P1"⟩,
        ⟨"task-20250101-090001-A02-x", "P0"⟩,
        ⟨"task-20250101-090002-H01-x", "P1"⟩]
      = [⟨"task-20250101-090001-A02-x", "P0"⟩,
         ⟨"task-20250101-090000-A01-x", "P1"⟩,
         ⟨"task-20250101-090002-H01-x", "P1"⟩] := by
  refine ⟨?_, ?_, ?_⟩
  · intro items
    exact List.mergeSort_perm items pendingLe
  · intro items
    exact List.sorted_mergeSort pendingLe_trans pendingLe_total items
  · rfl

/-- `takeWhile` passes over a block that wholly satisfies the predicate. -/
theorem takeWhile_append_of_all {p : Char → Bool} :
    ∀ {u v : List Char}, (∀ c ∈ u, p c = true) →
      List.takeWhile p (u ++ v) = u ++ List.takeWhile p v := by
  intro u
  induction u with
  | nil => intro v _; rfl
  | cons c u ih =>
    intro v h
    have hc : p c = true := h c (by simp)
    simp only [List.cons_append, List.takeWhile_cons_of_pos hc, List.cons.injEq,
      true_and]
    exact ih (fun d hd => h d (by simp [hd]))

/-- `dropWhile` passes over a block that wholly satisfies the predicate. -/
theorem dropWhile_append_of_all {p : Char → Bool} :
    ∀ {u v : List Char}, (∀ c ∈ u, p c = true) →
      List.dropWhile p (u ++ v) = List.dropWhile p v := by
  intro u
  induction u with
  | nil => intro v _; rfl
  | cons c u ih =>
    intro v h
    have hc : p c = true := h c (by simp)
    simp only [List.cons_append, List.dropWhile_cons_of_pos hc]
    exact ih (fun d hd => h d (by simp [hd]))

/-- Unfolding step of the substitution scan when no match starts here. -/
theorem subFieldFuel_cons_neg {M : List Char} (R : List Char) {c : Char}
    {rest : List Char} (f : Nat)
    (h : (M.isPrefixOf (c :: rest) && !M.isEmpty) = false) :
    subFieldFuel M R (f + 1) (c :: rest) = c :: subFieldFuel M R f rest := by
  simp only [subFieldFuel, h, Bool.false_eq_true, if_false]

/-- A marker that occurs nowhere in the text leaves the substitution scan
unchanged (whatever the fuel). -/
theorem subFieldFuel_no_occur (M R : List Char) :
    ∀ (f : Nat) (s : List Char), listHasSub M s = false → subFieldFuel M R f s = s := by
  intro f
  induction f with
  | zero => intro s _; rfl
  | succ f ih =>
    intro s h
    match s with
    | [] => rfl
    | c :: rest =>
      unfold listHasSub at h
      rw [Bool.or_eq_false_iff] at h
      rw [subFieldFuel_cons_neg R f (by rw [h.1]; rfl)]
      rw [ih rest h.2]

/-- The substitution scan passes unchanged over a region in which no match
can start. -/
theorem subFieldFuel_append (M R : List Char) :
    ∀ (a : List Char) (f : Nat) (b : List Char),
      (∀ i, i < a.length → M.isPrefixOf ((a ++ b).drop i) = false) →
      subFieldFuel M R f (a ++ b) = a ++ subFieldFuel M R (f - a.length) b := by
  intro a
  induction a with
  | nil => intro f b _; rfl
  | cons c a2 ih =>
    intro f b h
    match f with
    | 0 => rw [Nat.zero_sub]; rfl
    | f + 1 =>
      have h0 : (M.isPrefixOf (c :: (a2 ++ b)) && !M.isEmpty) = false := by
        have := h 0 (by simp)
        simp only [List.drop_zero, List.cons_append] at this
        rw [this]
        rfl
      rw [show (c :: a2) ++ b = c :: (a2 ++ b) from rfl]
      rw [subFieldFuel_cons_neg R f h0]
      rw [ih f b (fun i hi => by
        have := h (i + 1) (by simp only [List.length_cons]; omega)
        simpa using this)]
      have hlen : f + 1 - (c :: a2).length = f - a2.length := by
        simp only [List.length_cons]
        omega
      rw [hlen]
      rfl

/-- One unfolding step of the substitution scan (zeta-expanded form). -/
theorem subFieldFuel_cons (M R : List Char) (c : Char) (rest : List Char) (f : Nat) :
    subFieldFuel M R (f + 1) (c :: rest) =
      if (M.isPrefixOf (c :: rest) && !M.isEmpty) = true then
        (if (((c :: rest).drop M.length).dropWhile isPyWs).isEmpty = true then
          c :: subFieldFuel M R f rest
        else M ++ ((c :: rest).drop M.length).takeWhile isPyWs ++ R ++
          subFieldFuel M R f
            ((((c :: rest).drop M.length).dropWhile isPyWs).dropWhile isPyNonWs))
      else c :: subFieldFuel M R f rest := rfl

/-- A match at the head of the scan: the marker and the whitespace run are
kept, the token is replaced, and a remainder free of the marker passes
through unchanged. -/
theorem subFieldFuel_match (M R ws tk b : List Char) (f : Nat)
    (hM : M ≠ [])
    (hws : ∀ c ∈ ws, isPyWs c = true)
    (htkne : tk ≠ [])
    (htk : ∀ c ∈ tk, isPyNonWs c = true)
    (hbd : b.dropWhile isPyNonWs = b)
    (hbM : listHasSub M b = false) :
    subFieldFuel M R (f + 1) (M ++ (ws ++ (tk ++ b))) = M ++ (ws ++ (R ++ b)) := by
  obtain ⟨m, M2, rfl⟩ : ∃ m M2, M = m :: M2 := by
    cases M with
    | nil => exact absurd rfl hM
    | cons m M2 => exact ⟨m, M2, rfl⟩
  obtain ⟨t0, tk2, rfl⟩ : ∃ t0 tk2, tk = t0 :: tk2 := by
    cases tk with
    | nil => exact absurd rfl htkne
    | cons t0 tk2 => exact ⟨t0, tk2, rfl⟩
  have ht0 : isPyWs t0 = false := by
    have := htk t0 (by simp)
    unfold isPyNonWs at this
    cases h0 : isPyWs t0
    · rfl
    · rw [h0] at this; exact absurd this (by decide)
  have hg : ((m :: M2).isPrefixOf ((m :: M2) ++ (ws ++ ((t0 :: tk2) ++ b)))
      && !(m :: M2).isEmpty) = true := by
    rw [List.isPrefixOf_iff_prefix.mpr (List.prefix_append _ _)]
    rfl
  have hdrop : ((m :: (M2 ++ (ws ++ ((t0 :: tk2) ++ b)))).drop (m :: M2).length)
      = ws ++ ((t0 :: tk2) ++ b) := by
    simp only [List.length_cons, List.drop_succ_cons]
    exact List.drop_left M2 _
  have hdw : ((ws ++ ((t0 :: tk2) ++ b)).dropWhile isPyWs) = (t0 :: tk2) ++ b := by
    rw [dropWhile_append_of_all hws]
    rw [List.cons_append, List.dropWhile_cons_of_neg (by simp [ht0])]
  have htw : ((ws ++ ((t0 :: tk2) ++ b)).takeWhile isPyWs) = ws := by
    rw [takeWhile_append_of_all hws]
    rw [List.cons_append, List.takeWhile_cons_of_neg (by simp [ht0])]
    simp
  have htok : (((t0 :: tk2) ++ b).dropWhile isPyNonWs) = b := by
    rw [dropWhile_append_of_all htk, hbd]
  show subFieldFuel (m :: M2) R (f + 1) (m :: (M2 ++ (ws ++ ((t0 :: tk2) ++ b))))
      = (m :: M2) ++ (ws ++ (R ++ b))
  rw [subFieldFuel_cons]
  rw [if_pos (by exact hg)]
  rw [hdrop, hdw, htw, htok]
  rw [show ((t0 :: tk2) ++ b).isEmpty = false from rfl]
  simp only [Bool.false_eq_true, if_false]
  rw [subFieldFuel_no_occur _ R f b hbM]
  simp [List.append_assoc]

/-- Full substitution behaviour on a document with exactly one marker
occurrence: the prefix region (where no match starts), the marker, its
whitespace run and the remainder are preserved, and the token is
replaced. -/
theorem subField_rewrite (M R a ws tk b : List Char)
    (hM : M ≠ [])
    (hpre : ∀ i, i < a.length →
      M.isPrefixOf ((a ++ (M ++ (ws ++ (tk ++ b)))).drop i) = false)
    (hws : ∀ c ∈ ws, isPyWs c = true)
    (htkne : tk ≠ [])
    (htk : ∀ c ∈ tk, isPyNonWs c = true)
    (hbd : b.dropWhile isPyNonWs = b)
    (hbM : listHasSub M b = false)
    (f : Nat) (hf : a.length < f) :
    subFieldFuel M R f (a ++ (M ++ (ws ++ (tk ++ b))))
      = a ++ (M ++ (ws ++ (R ++ b))) := by
  rw [subFieldFuel_append M R a f _ hpre]
  obtain ⟨k, hk⟩ : ∃ k, f - a.length = k + 1 := ⟨f - a.length - 1, by omega⟩
  rw [hk, subFieldFuel_match M R ws tk b k hM hws htkne htk hbd hbM]

/-- `pyReSubField` on a document holding exactly one `**<field>:**` label:
the labelled token is replaced and everything else is preserved. -/
theorem pyReSubField_rewrite (field repl : String) (a ws tk b : List Char)
    (hpre : ∀ i, i < a.length →
      (("**" ++ field ++ ":**").data).isPrefixOf
        ((a ++ (("**" ++ field ++ ":**").data ++ (ws ++ (tk ++ b)))).drop i) = false)
    (hws : ∀ c ∈ ws, isPyWs c = true)
    (htkne : tk ≠ [])
    (htk : ∀ c ∈ tk, isPyNonWs c = true)
    (hbd : b.dropWhile isPyNonWs = b)
    (hbM : listHasSub (("**" ++ field ++ ":**").data) b = false) :
    pyReSubField field repl ⟨a ++ (("**" ++ field ++ ":**").data ++ (ws ++ (tk ++ b)))⟩
      = ⟨a ++ (("**" ++ field ++ ":**").data ++ (ws ++ (repl.data ++ b)))⟩ := by
  have hM : ("**" ++ field ++ ":**").data ≠ [] := by
    intro h
    have hlen := congrArg List.length h
    simp [String.data_append, List.length_append] at hlen
  have hMposLen : 0 < ("**" ++ field ++ ":**").data.length :=
    List.length_pos.mpr hM
  unfold pyReSubField
  apply congrArg String.mk
  apply subField_rewrite _ _ _ _ _ _ hM hpre hws htkne htk hbd hbM
  simp only [List.length_append]
  omega

/-- The content rewriting of duplication on a `fieldDoc`-shaped document:
the ID token becomes the new task id and the Created token becomes today's
date; every other character is preserved. -/
theorem dupContent_fieldDoc (newId today : String)
    (A W1 T1 P2 W2 T2 P3 : List Char)
    (hpre1 : ∀ i, i < A.length →
      ("**ID:**".data).isPrefixOf ((fieldDoc A W1 T1 P2 W2 T2 P3).data.drop i) = false)
    (hW1 : ∀ c ∈ W1, isPyWs c = true)
    (hT1ne : T1 ≠ [])
    (hT1 : ∀ c ∈ T1, isPyNonWs c = true)
    (hb1 : (P2 ++ ("**Created:**".data ++ (W2 ++ (T2 ++ P3)))).dropWhile isPyNonWs
      = P2 ++ ("**Created:**".data ++ (W2 ++ (T2 ++ P3))))
    (hb1M : listHasSub "**ID:**".data
      (P2 ++ ("**Created:**".data ++ (W2 ++ (T2 ++ P3)))) = false)
    (hpre2 : ∀ i, i < (A ++ ("**ID:**".data ++ (W1 ++ (newId.data ++ P2)))).length →
      ("**Created:**".data).isPrefixOf
        (((A ++ ("**ID:**".data ++ (W1 ++ (newId.data ++ P2))))
          ++ ("**Created:**".data ++ (W2 ++ (T2 ++ P3)))).drop i) = false)
    (hW2 : ∀ c ∈ W2, isPyWs c = true)
    (hT2ne : T2 ≠ [])
    (hT2 : ∀ c ∈ T2, isPyNonWs c = true)
    (hb2 : P3.dropWhile isPyNonWs = P3)
    (hb2M : listHasSub "**Created:**".data P3 = false) :
    dupContent (fieldDoc A W1 T1 P2 W2 T2 P3) newId today
      = fieldDoc A W1 newId.data P2 W2 today.data P3 := by
  have e1 : pyReSubField "ID" newId
      ⟨A ++ ("**ID:**".data ++ (W1 ++ (T1 ++
        (P2 ++ ("**Created:**".data ++ (W2 ++ (T2 ++ P3)))))))⟩
      = ⟨A ++ ("**ID:**".data ++ (W1 ++ (newId.data ++
        (P2 ++ ("**Created:**".data ++ (W2 ++ (T2 ++ P3)))))))⟩ :=
    pyReSubField_rewrite "ID" newId A W1 T1
      (P2 ++ ("**Created:**".data ++ (W2 ++ (T2 ++ P3))))
      (by exact hpre1) hW1 hT1ne hT1 hb1 hb1M
  have hassoc : A ++ ("**ID:**".data ++ (W1 ++ (newId.data ++
        (P2 ++ ("**Created:**".data ++ (W2 ++ (T2 ++ P3)))))))
      = (A ++ ("**ID:**".data ++ (W1 ++ (newId.data ++ P2))))
        ++ ("**Created:**".data ++ (W2 ++ (T2 ++ P3))) := by
    simp [List.append_assoc]
  have e2 : pyReSubField "Created" today
      ⟨(A ++ ("**ID:**".data ++ (W1 ++ (newId.data ++ P2))))
        ++ ("**Created:**".data ++ (W2 ++ (T2 ++ P3)))⟩
      = ⟨(A ++ ("**ID:**".data ++ (W1 ++ (newId.data ++ P2))))
        ++ ("**Created:**".data ++ (W2 ++ (today.data ++ P3)))⟩ :=
    pyReSubField_rewrite "Created" today
      (A ++ ("**ID:**".data ++ (W1 ++ (newId.data ++ P2)))) W2 T2 P3
      (by exact hpre2) hW2 hT2ne hT2 hb2 hb2M
  have hassoc2 : (A ++ ("**ID:**".data ++ (W1 ++ (newId.data ++ P2))))
        ++ ("**Created:**".data ++ (W2 ++ (today.data ++ P3)))
      = A ++ ("**ID:**".data ++ (W1 ++ (newId.data ++
        (P2 ++ ("**Created:**".data ++ (W2 ++ (today.data ++ P3))))))) := by
    simp [List.append_assoc]
  unfold dupContent fieldDoc
  rw [e1, congrArg String.mk hassoc, e2, congrArg String.mk hassoc2]

/-- C7: duplicating a task whose spec has the canonical labelled-document
shape creates a new file in `pending` whose content is identical to the
source except that the `**ID:**` token is rewritten to the freshly
generated id and the `**Created:**` token to today's date (so `Priority`,
`Agent`, `Model` and the body text are unchanged), while every other queue
file — in particular the original, in its original state directory — is
left untouched. -/
theorem C7_duplicate_roundtrip
    (fs : QueueFS) (tid newId today st : String)
    (A W1 T1 P2 W2 T2 P3 : List Char)
    (hfind : findTaskState fs tid = some (st, fieldDoc A W1 T1 P2 W2 T2 P3))
    (hpre1 : ∀ i, i < A.length →
      ("**ID:**".data).isPrefixOf ((fieldDoc A W1 T1 P2 W2 T2 P3).data.drop i) = false)
    (hW1 : ∀ c ∈ W1, isPyWs c = true)
    (hT1ne : T1 ≠ [])
    (hT1 : ∀ c ∈ T1, isPyNonWs c = true)
    (hb1 : (P2 ++ ("**Created:**".data ++ (W2 ++ (T2 ++ P3)))).dropWhile isPyNonWs
      = P2 ++ ("**Created:**".data ++ (W2 ++ (T2 ++ P3))))
    (hb1M : listHasSub "**ID:**".data
      (P2 ++ ("**Created:**".data ++ (W2 ++ (T2 ++ P3)))) = false)
    (hpre2 : ∀ i, i < (A ++ ("**ID:**".data ++ (W1 ++ (newId.data ++ P2)))).length →
      ("**Created:**".data).isPrefixOf
        (((A ++ ("**ID:**".data ++ (W1 ++ (newId.data ++ P2))))
          ++ ("**Created:**".data ++ (W2 ++ (T2 ++ P3)))).drop i) = false)
    (hW2 : ∀ c ∈ W2, isPyWs c = true)
    (hT2ne : T2 ≠ [])
    (hT2 : ∀ c ∈ T2, isPyNonWs c = true)
    (hb2 : P3.dropWhile isPyNonWs = P3)
    (hb2M : listHasSub "**Created:**".data P3 = false)
    (hnew : newId ≠ tid) :
    api_duplicate_task fs tid newId today
      = some (st, fieldDoc A W1 newId.data P2 W2 today.data P3,
          fsWrite fs "pending" newId (fieldDoc A W1 newId.data P2 W2 today.data P3))
    ∧ fsWrite fs "pending" newId (fieldDoc A W1 newId.data P2 W2 today.data P3)
        "pending" newId = some (fieldDoc A W1 newId.data P2 W2 today.data P3)
    ∧ (∀ s t, ¬(s = "pending" ∧ t = newId) →
        fsWrite fs "pending" newId (fieldDoc A W1 newId.data P2 W2 today.data P3) s t
          = fs s t)
    ∧ fsWrite fs "pending" newId (fieldDoc A W1 newId.data P2 W2 today.data P3)
        st tid = fs st tid := by
  have hdup := dupContent_fieldDoc newId today A W1 T1 P2 W2 T2 P3
    hpre1 hW1 hT1ne hT1 hb1 hb1M hpre2 hW2 hT2ne hT2 hb2 hb2M
  have hother : ∀ s t, ¬(s = "pending" ∧ t = newId) →
      fsWrite fs "pending" newId (fieldDoc A W1 newId.data P2 W2 today.data P3) s t
        = fs s t := by
    intro s t h
    unfold fsWrite
    rcases hs : (s == "pending") with _ | _
    · simp
    · rcases ht : (t == newId) with _ | _
      · simp
      · exact absurd ⟨beq_iff_eq.mp hs, beq_iff_eq.mp ht⟩ h
  refine ⟨?_, ?_, hother, ?_⟩
  · unfold api_duplicate_task
    rw [hfind]
    simp only [hdup]
  · unfold fsWrite
    simp
  · exact hother st tid (by
      rintro ⟨-, h2⟩
      exact hnew h2.symm)

/-- C7 witness: duplicating a concrete pending task produces the expected
pending copy with rewritten ID and Created tokens. -/
theorem C7_duplicate_roundtrip_witness :
    api_duplicate_task
      (fun s t => if s == "pending" && t == "task-20250101-120000-fix-parser"
        then some (fieldDoc "# Task: Fix parser\n\n".data [' ']
          "task-20250101-120000-fix-parser".data "\n".data [' ']
          "2025-01-01".data
          "\n**Priority:** P1\n**Agent:** claude\n**Model:** opus\n\n---\n\nDo it.\n".data)
        else none)
      "task-20250101-120000-fix-parser" "task-20250102-093000-fix-parser-copy"
      "2025-01-02"
      = some ("pending",
          fieldDoc "# Task: Fix parser\n\n".data [' ']
            "task-20250102-093000-fix-parser-copy".data "\n".data [' ']
            "2025-01-02".data
            "\n**Priority:** P1\n**Agent:** claude\n**Model:** opus\n\n---\n\nDo it.\n".data,
          fsWrite
            (fun s t => if s == "pending" && t == "task-20250101-120000-fix-parser"
              then some (fieldDoc "# Task: Fix parser\n\n".data [' ']
                "task-20250101-120000-fix-parser".data "\n".data [' ']
                "2025-01-01".data
                "\n**Priority:** P1\n**Agent:** claude\n**Model:** opus\n\n---\n\nDo it.\n".data)
              else none)
            "pending" "task-20250102-093000-fix-parser-copy"
            (fieldDoc "# Task: Fix parser\n\n".data [' ']
              "task-20250102-093000-fix-parser-copy".data "\n".data [' ']
              "2025-01-02".data
              "\n**Priority:** P1\n**Agent:** claude\n**Model:** opus\n\n---\n\nDo it.\n".data)) :=
  (C7_duplicate_roundtrip
    (fun s t => if s == "pending" && t == "task-20250101-120000-fix-parser"
      then some (fieldDoc "# Task: Fix parser\n\n".data [' ']
        "task-20250101-120000-fix-parser".data "\n".data [' ']
        "2025-01-01".data
        "\n**Priority:** P1\n**Agent:** claude\n**Model:** opus\n\n---\n\nDo it.\n".data)
      else none)
    "task-20250101-120000-fix-parser" "task-20250102-093000-fix-parser-copy"
    "2025-01-02" "pending"
    "# Task: Fix parser\n\n".data [' '] "task-20250101-120000-fix-parser".data
    "\n".data [' '] "2025-01-01".data
    "\n**Priority:** P1\n**Agent:** claude\n**Model:** opus\n\n---\n\nDo it.\n".data
    (by decide) (by decide) (by decide) (by decide) (by decide) (by decide)
    (by decide) (by decide) (by decide) (by decide) (by decide) (by decide)
    (by decide) (by decide)).1
